import Mathlib

/-!
Shallow embedding of the LLM response-contract pipeline of the
PocketFlowNode repository (TypeScript), covering:

* `src/core/identify-abstractions.ts` (`validateFileIndex`, `identifyAbstractions`)
* `src/core/analyze-relationships.ts` (`parseAbstractionRef`, `analyzeRelationships`)
* `src/core/order-chapters.ts` (`parseAbstractionRefForOrder`, `orderChapters`)
* `src/core/write-chapters.ts` (`sanitizeFilename`, `writeChapters`)

Modelling conventions:
* JS strings are Lean `String`s (sequences of characters; the UTF-16 unit
  distinction is irrelevant to the ASCII-level operations used here).
* Finite JS numbers are modelled exactly as rationals (`ℚ`); the JS `NaN`
  is a separate constructor of the value type.  All numeric operations
  performed by the embedded code (regex digit extraction, `parseInt`,
  comparisons against small integer bounds) are exact on the values at
  issue, so the rational idealisation is faithful.
* Values parsed from the LLM's YAML output are modelled by the inductive
  type `JVal` (null / boolean / number / NaN / string / array / object).
* `yaml.load` (the external js-yaml library) and the LLM provider's
  `generateContent` are modelled as function parameters; each embedded
  pipeline function returns its result paired with the number of LLM
  calls it made.
* Thrown `Error`s become `Except.error` values whose payload carries the
  data that the source interpolates into the message text.
-/

/-- Characters treated as whitespace by the JS `\s` regex class, `trim`
and `parseInt` (ASCII portion, which is all the embedded code meets). -/
def jsWs (c : Char) : Bool :=
  c == ' ' || c == '\t' || c == '\n' || c == '\r' || c == '\x0b' || c == '\x0c'

/-- Characters kept by the filter `[^\w_.-]` → remove of `sanitizeFilename`:
ASCII letters, digits, underscore, dot and hyphen. -/
def allowedChar (c : Char) : Bool :=
  c.isAlpha || c.isDigit || c == '_' || c == '.' || c == '-'

/-- Numeric value of a list of decimal digit characters, read left to
right (the value `parseInt` assigns to a digit run). -/
def digitsVal (ds : List Char) : ℕ :=
  ds.foldl (fun a c => 10 * a + (c.toNat - 48)) 0

/-- Fuel-driven decimal rendering of a natural number (digits of `n`,
most significant first).  Structural in the fuel so that it reduces in
the kernel; `natDecDigits` supplies sufficient fuel. -/
def natDecDigitsAux : ℕ → ℕ → List Char
  | 0, _ => []
  | fuel + 1, n =>
    if n < 10 then [Nat.digitChar n]
    else natDecDigitsAux fuel (n / 10) ++ [Nat.digitChar (n % 10)]

/-- Decimal digit string of a natural number, as produced by the JS
number-to-string conversion on a nonnegative integer. -/
def natDecDigits (n : ℕ) : List Char :=
  natDecDigitsAux (n + 1) n

/-- Decimal rendering of a natural number as a `String`. -/
def natDecString (n : ℕ) : String :=
  String.mk (natDecDigits n)

/-- Decimal rendering of an integer as a `String` (JS template `${k}` for
an integral number). -/
def intDecString (k : ℤ) : String :=
  if k < 0 then "-" ++ String.mk (natDecDigits k.natAbs)
  else String.mk (natDecDigits k.natAbs)

/-- Embedding of `String.prototype.padStart(2, '0')` on a digit list. -/
def padStart2 (s : List Char) : List Char :=
  if 2 ≤ s.length then s else List.replicate (2 - s.length) '0' ++ s

/-- ASCII lower-casing, the fragment of JS `toLowerCase` exercised by the
embedded code (explicit table so that every proof can proceed by cases). -/
def jsToLower (c : Char) : Char :=
  match c with
  | 'A' => 'a' | 'B' => 'b' | 'C' => 'c' | 'D' => 'd' | 'E' => 'e'
  | 'F' => 'f' | 'G' => 'g' | 'H' => 'h' | 'I' => 'i' | 'J' => 'j'
  | 'K' => 'k' | 'L' => 'l' | 'M' => 'm' | 'N' => 'n' | 'O' => 'o'
  | 'P' => 'p' | 'Q' => 'q' | 'R' => 'r' | 'S' => 's' | 'T' => 't'
  | 'U' => 'u' | 'V' => 'v' | 'W' => 'w' | 'X' => 'x' | 'Y' => 'y'
  | 'Z' => 'z' | other => other

/-- Strip whitespace at both ends of a character list (JS `trim`). -/
def jsTrimList (xs : List Char) : List Char :=
  ((xs.dropWhile jsWs).reverse.dropWhile jsWs).reverse

/-- Embedding of JS `String.prototype.trim`. -/
def jsTrim (s : String) : String :=
  String.mk (jsTrimList s.toList)

/-- Embedding of `.replace(/\s+/g, '_')`: every maximal whitespace run
becomes a single underscore.  The boolean records whether the previous
character belonged to a whitespace run. -/
def collapseWs : Bool → List Char → List Char
  | _, [] => []
  | prevWs, c :: cs =>
    if jsWs c then
      (if prevWs then collapseWs true cs else '_' :: collapseWs true cs)
    else c :: collapseWs false cs

/-- Embedding of JS `parseInt(s, 10)`: skip leading whitespace, read an
optional sign, then the longest leading decimal-digit run; `none` models
the `NaN` result when no digits are found. -/
def jsParseIntRadix10 (s : String) : Option ℤ :=
  match s.toList.dropWhile jsWs with
  | '-' :: r =>
    let ds := r.takeWhile Char.isDigit
    if ds.isEmpty then none else some (-(digitsVal ds : ℤ))
  | '+' :: r =>
    let ds := r.takeWhile Char.isDigit
    if ds.isEmpty then none else some ((digitsVal ds : ℤ))
  | r =>
    let ds := r.takeWhile Char.isDigit
    if ds.isEmpty then none else some ((digitsVal ds : ℤ))

/-- JS values as produced by parsing the LLM's YAML output. -/
inductive JVal where
  | null
  | bool (b : Bool)
  | num (x : ℚ)
  | nan
  | str (s : String)
  | arr (xs : List JVal)
  | obj (fields : List (String × JVal))

/-- Property read `v[key]` on a JS value: defined on objects, `undefined`
(here `none`) on everything else the embedded code applies it to. -/
def JVal.get : JVal → String → Option JVal
  | .obj fields, key => fields.lookup key
  | _, _ => none

/-- JS truthiness of a possibly-`undefined` value (`none` = `undefined`). -/
def jsTruthy : Option JVal → Bool
  | none => false
  | some .null => false
  | some (.bool b) => b
  | some (.num x) => decide (x ≠ 0)
  | some .nan => false
  | some (.str s) => !s.isEmpty
  | some (.arr _) => true
  | some (.obj _) => true

/-- JS array indexing `l[q]` by a number: hits an element exactly when the
number is a nonnegative integer below the length. -/
def jsIndex {α : Type} (l : List α) (q : ℚ) : Option α :=
  if q.den = 1 ∧ 0 ≤ q.num then l[q.num.toNat]? else none

/-- True exactly on `Except.error`. -/
def isErr {ε α : Type} : Except ε α → Bool
  | .error _ => true
  | .ok _ => false

/-- Count powers of `p` dividing `m` (fuel-driven so it reduces). -/
def countFactor (p : ℕ) : ℕ → ℕ → ℕ
  | 0, _ => 0
  | fuel + 1, m =>
    if m ≠ 0 ∧ m % p = 0 ∧ 2 ≤ p then 1 + countFactor p fuel (m / p) else 0

/-- Left-pad a digit list with character zeros to the given length. -/
def padToLen (k : ℕ) (s : List Char) : List Char :=
  if k ≤ s.length then s else List.replicate (k - s.length) '0' ++ s

/-- Display string of a JS number (template literal `${q}`): exact for
integers and for terminating decimals, which covers every numeric value
the pipeline can actually meet; other rationals (unreachable from JS
doubles) fall back to a fraction rendering. -/
def ratToDisplay (q : ℚ) : String :=
  if q.den = 1 then intDecString q.num
  else
    let k := max (countFactor 2 q.den q.den) (countFactor 5 q.den q.den)
    if q.den ∣ 10 ^ k then
      let a := (q.num.natAbs * 10 ^ k) / q.den
      let sign := if q < 0 then "-" else ""
      sign ++ natDecString (a / 10 ^ k) ++ "." ++
        String.mk (padToLen k (natDecDigits (a % 10 ^ k)))
    else intDecString q.num ++ "/" ++ natDecString q.den

/-- Structure `FetchedFile` of `src/types` — `\x7b path, content \x7d`. -/
structure FetchedFile where
  path : String
  content : String
deriving DecidableEq

/-- Structure `Abstraction` of `src/types`.  `fileIndices` holds JS numbers as
produced by `validateFileIndex` (see theorem on claim C5: these are not
forced to be integers by the code, hence `ℚ`). -/
structure Abstraction where
  name : String
  description : String
  fileIndices : List ℚ
deriving DecidableEq

/-- Structure `Relationship` of `src/types` (`from`/`to`
renamed `from_`/`to_` because `from` is a Lean keyword). -/
structure Relationship where
  from_ : ℚ
  to_ : ℚ
  label : String
deriving DecidableEq

/-- Structure `ProjectAnalysis` of `src/types`. -/
structure ProjectAnalysis where
  summary : String
  relationships : List Relationship
deriving DecidableEq

/-- Structure `ChapterLinkInfo` of `src/types`. -/
structure ChapterLinkInfo where
  num : ℕ
  name : String
  filename : String
deriving DecidableEq

/-- Structure `ChapterOutput` of `src/types`. -/
structure ChapterOutput where
  chapterNumber : ℕ
  abstractionIndex : ℚ
  title : String
  content : String
  filename : String
deriving DecidableEq

/-- Structured payloads of the errors thrown by the three reference
parsers.  The three TS functions differ only in the wording of the
message around these payloads. -/
inductive RefError where
  | badFormat (raw : String)
  | badType
  | nanIndex (maxIndex : ℤ)
  | outOfBounds (idx : ℚ) (maxIndex : ℤ)
deriving DecidableEq

/-- Shared final bounds check `if (isNaN(indexInt) || indexInt < 0 ||
indexInt > maxIndex) throw` of all three parsers, for a non-NaN number. -/
def checkRefBounds (x : ℚ) (maxIndex : ℤ) : Except RefError ℚ :=
  if x < 0 ∨ x > (maxIndex : ℚ) then Except.error (RefError.outOfBounds x maxIndex)
  else Except.ok x

/-- Embedding of `validateFileIndex` (identify-abstractions.ts 242-263):
a number passes straight to the bounds check; a string must match
`/^(\d+)/` and its leading digit run is the index; anything else throws. -/
def validateFileIndex (rawIndex : JVal) (maxIndex : ℤ) : Except RefError ℚ :=
  match rawIndex with
  | .num x => checkRefBounds x maxIndex
  | .nan => Except.error (RefError.nanIndex maxIndex)
  | .str s =>
    let ds := s.toList.takeWhile Char.isDigit
    if ds.isEmpty then Except.error (RefError.badFormat s)
    else checkRefBounds ((digitsVal ds : ℚ)) maxIndex
  | _ => Except.error RefError.badType

/-- Embedding of `parseAbstractionRef` (analyze-relationships.ts 14-34);
the body is the same as `validateFileIndex` up to message wording. -/
def parseAbstractionRef (rawRef : JVal) (maxIndex : ℤ) : Except RefError ℚ :=
  match rawRef with
  | .num x => checkRefBounds x maxIndex
  | .nan => Except.error (RefError.nanIndex maxIndex)
  | .str s =>
    let ds := s.toList.takeWhile Char.isDigit
    if ds.isEmpty then Except.error (RefError.badFormat s)
    else checkRefBounds ((digitsVal ds : ℚ)) maxIndex
  | _ => Except.error RefError.badType

/-- Embedding of `parseAbstractionRefForOrder` (order-chapters.ts 13-39):
like the other two parsers, except that a string with no leading digit is
additionally tried through `parseInt(rawRef, 10)` before being rejected. -/
def parseAbstractionRefForOrder (rawRef : JVal) (maxIndex : ℤ) : Except RefError ℚ :=
  match rawRef with
  | .num x => checkRefBounds x maxIndex
  | .nan => Except.error (RefError.nanIndex maxIndex)
  | .str s =>
    let ds := s.toList.takeWhile Char.isDigit
    if ds.isEmpty then
      match jsParseIntRadix10 s with
      | some directInt => checkRefBounds ((directInt : ℚ)) maxIndex
      | none => Except.error (RefError.badFormat s)
    else checkRefBounds ((digitsVal ds : ℚ)) maxIndex
  | _ => Except.error RefError.badType

/-- Split a character list at the first occurrence of a pattern,
returning the part before it and the part after it. -/
def splitFirst (pat : List Char) : List Char → Option (List Char × List Char)
  | [] => none
  | c :: cs =>
    if pat.isPrefixOf (c :: cs) then some ([], (c :: cs).drop pat.length)
    else
      match splitFirst pat cs with
      | some (pre, post) => some (c :: pre, post)
      | none => none

/-- Embedding of the fenced-block extraction
`llmResponse.match(/```yaml\n([\s\S]*?)\n```/)` shared by the stages:
the capture is the text between the first ```` ```yaml ```` opener and
the first closing fence after it. -/
def extractYamlBlock (s : String) : Option String :=
  match splitFirst ("```yaml\n".toList) s.toList with
  | none => none
  | some (_, rest) =>
    match splitFirst ("\n```".toList) rest with
    | none => none
    | some (mid, _) => some (String.mk mid)

/-- Structured payloads of the per-item errors of the order loop. -/
inductive OrderItemError where
  | ref (e : RefError)
  | dup (idx : ℚ)
deriving DecidableEq

/-- Structured payloads of the errors thrown by `orderChapters`. -/
inductive OrderError where
  | yamlError (msg : String)
  | notArray
  | invalidItem (e : OrderItemError)
  | incomplete (missing : List ℕ) (expected got : ℕ)
deriving DecidableEq

/-- Embedding of the `for (const rawIdx of rawOrderedIndices)` loop of
`orderChapters` (order-chapters.ts 171-184): resolve each element, throw
on the first resolution failure or on the first already-seen index,
otherwise push onto both the output and the seen set. -/
def orderValidateGo (maxIndex : ℤ) : List JVal → List ℚ → List ℚ → Except OrderError (List ℚ)
  | [], acc, _ => Except.ok acc
  | it :: rest, acc, seen =>
    match parseAbstractionRefForOrder it maxIndex with
    | .error e => Except.error (OrderError.invalidItem (OrderItemError.ref e))
    | .ok v =>
      if v ∈ seen then Except.error (OrderError.invalidItem (OrderItemError.dup v))
      else orderValidateGo maxIndex rest (acc ++ [v]) (seen ++ [v])

/-- Embedding of the parse-and-validate phase of `orderChapters`
(order-chapters.ts 163-194) applied to the already-YAML-parsed response:
top level must be an array; elements are resolved and de-duplicated by
`orderValidateGo`; afterwards only `validated.length !== M` triggers the
missing-indices error, whose payload lists every index of `0..M-1`
absent from the received set. -/
def orderChaptersValidate (m : ℕ) (raw : JVal) : Except OrderError (List ℚ) :=
  match raw with
  | .arr items =>
    match orderValidateGo ((m : ℤ) - 1) items [] [] with
    | .error e => Except.error e
    | .ok validated =>
      if validated.length ≠ m then
        Except.error (OrderError.incomplete
          ((List.range m).filter (fun i => ! decide ((i : ℚ) ∈ validated)))
          m validated.length)
      else Except.ok validated
  | _ => Except.error OrderError.notArray

/-- The listing `abstractions.map((abs, i) => `- ${i} # ${abs.name}`)
.join("\n")` of order-chapters.ts line 67. -/
def abstractionListForOrderPrompt (abstractions : List Abstraction) : String :=
  String.intercalate "\n"
    (abstractions.enum.map (fun p => "- " ++ natDecString p.1 ++ " # " ++ p.2.name))

/-- The `relationshipsContext` string of order-chapters.ts lines 69-82. -/
def relationshipsContextFor (abstractions : List Abstraction) (pa : ProjectAnalysis) : String :=
  "Relationships between abstractions:\n" ++
  (if pa.relationships.isEmpty then
    "No specific relationships were identified or provided.\n"
  else
    String.join (pa.relationships.map (fun rel =>
      match jsIndex abstractions rel.from_, jsIndex abstractions rel.to_ with
      | some fromAbs, some toAbs =>
        "- From " ++ ratToDisplay rel.from_ ++ " (" ++ fromAbs.name ++ ") to " ++
          ratToDisplay rel.to_ ++ " (" ++ toAbs.name ++ "): " ++ rel.label ++ "\n"
      | _, _ =>
        "- Relationship with invalid abstraction index: from " ++
          ratToDisplay rel.from_ ++ " to " ++ ratToDisplay rel.to_ ++ "\n")))

/-- The prompt template of `orderChapters` (order-chapters.ts 88-135). -/
def orderChaptersPrompt (abstractions : List Abstraction) (pa : ProjectAnalysis)
    (projectName language : String) : String :=
  let projectSummary := if pa.summary = "" then "No project summary was provided." else pa.summary
  "\nYour task is to determine the optimal order for explaining the key abstractions of a software project named \"" ++ projectName ++ "\" in a tutorial.\n" ++
  "The goal is to present the abstractions in a logical sequence that helps a learner understand the project, starting from the most foundational or user-facing concepts and progressing to more detailed or dependent ones.\n\n" ++
  "You are provided with:\n" ++
  "1.  A list of key abstractions (with their current index and name).\n" ++
  "2.  A summary of the project.\n" ++
  "3.  A list of identified relationships between these abstractions.\n\n" ++
  "List of Abstractions:\n<abstractions_list>\n" ++ abstractionListForOrderPrompt abstractions ++ "\n</abstractions_list>\n\n" ++
  "Project Summary (This summary might be in " ++ language ++ "):\n<project_summary>\n" ++ projectSummary ++ "\n</project_summary>\n\n" ++
  "Identified Relationships (Relationship labels might be in " ++ language ++ "):\n<relationships_context>\n" ++ relationshipsContextFor abstractions pa ++ "\n</relationships_context>\n\n" ++
  "Considering the project summary and the relationships, please determine the best order to explain these abstractions.\n" ++
  "The order should be a sequence of abstraction indices, from the first one to explain to the last.\n" ++
  "Ensure that every abstraction from the list above is included exactly once in your proposed order.\n\n" ++
  "Please format your response as a YAML list of abstraction indices.\n" ++
  "You can list just the index number, or \"index # Name\" for clarity (we will parse the index).\n\n" ++
  "Example YAML output:\n```yaml\n- 0 # User Interface Module\n- 2 # Core Logic Handler\n- 1 # Database Connector\n```\nOr simply:\n```yaml\n- 0\n- 2\n- 1\n```\n\n" ++
  (if language ≠ "english" then
    "Note: The abstraction names, project summary, and relationship labels provided above might be in " ++ language ++ ". Your output should be a list of indices as shown in the example.\n"
  else "") ++
  "\n\nNow, provide the YAML list representing the ordered abstraction indices.\n"

/-- Embedding of `orderChapters` (order-chapters.ts 42-195).  The LLM
provider and the external YAML parser are parameters; the second
component of the result counts LLM calls.  `useCache`/`llmOptions` only
shape the provider options and are not observable here. -/
def orderChapters (abstractions : List Abstraction) (projectAnalysis : Option ProjectAnalysis)
    (projectName : String) (llm : String → String) (yamlLoad : String → Except String JVal)
    (language : String := "english") : Except OrderError (List ℚ) × ℕ :=
  if abstractions.isEmpty then (Except.ok [], 0)
  else
    let pa := projectAnalysis.getD ⟨"No project summary provided.", []⟩
    let prompt := orderChaptersPrompt abstractions pa projectName language
    let llmResponse := llm prompt
    let parsed : Except String JVal :=
      match extractYamlBlock llmResponse with
      | some block => yamlLoad block
      | none => yamlLoad llmResponse
    match parsed with
    | .error msg => (Except.error (OrderError.yamlError msg), 1)
    | .ok raw => (orderChaptersValidate abstractions.length raw, 1)

/-- Sequential mapping of a fallible function over a list, stopping at
the first error: the behaviour of JS `Array.prototype.map` with a
callback that can throw, as used on `file_indices`. -/
def mapExcept {ε α β : Type} (f : α → Except ε β) : List α → Except ε (List β)
  | [] => Except.ok []
  | a :: as =>
    match f a with
    | .error e => Except.error e
    | .ok b =>
      match mapExcept f as with
      | .error e => Except.error e
      | .ok bs => Except.ok (b :: bs)

/-- Errors thrown by `identifyAbstractions` after the LLM call. -/
inductive IdentifyError where
  | yamlError (msg : String)
  | notAbstractionsArray
deriving DecidableEq

/-- Embedding of the per-item validation of the `for (const rawAbs of
rawAbstractions)` loop of `identifyAbstractions` (identify-abstractions.ts
378-408): `none` models `continue` (skip with warning) and the `catch`
branch; `some` models the pushed abstraction with trimmed name and
description and the mapped file indices. -/
def validateRawAbstraction (maxIndex : ℤ) (rawAbs : JVal) : Option Abstraction :=
  let objLike := match rawAbs with | .obj _ => true | .arr _ => true | _ => false
  if !objLike then none
  else
    match rawAbs.get ("name") with
    | some (.str name) =>
      if (jsTrim name).isEmpty then none
      else
        match rawAbs.get ("description") with
        | some (.str description) =>
          if (jsTrim description).isEmpty then none
          else
            match rawAbs.get ("file_indices") with
            | some (.arr idxs) =>
              if idxs.isEmpty then none
              else
                match mapExcept (fun idx => validateFileIndex idx maxIndex) idxs with
                | .ok validatedIndices =>
                  some ⟨jsTrim name, jsTrim description, validatedIndices⟩
                | .error _ => none
            | _ => none
        | _ => none
    | _ => none

/-- Accumulated result of the validation loop of `identifyAbstractions`. -/
def validateRawAbstractions (maxIndex : ℤ) (items : List JVal) : List Abstraction :=
  items.filterMap (validateRawAbstraction maxIndex)

/-- The `filesContext` accumulation of identify-abstractions.ts 285-290. -/
def filesContextFor (filesData : List FetchedFile) : String :=
  String.join (filesData.enum.map (fun p =>
    "--- File Index " ++ natDecString p.1 ++ ": " ++ p.2.path ++ " ---\n" ++ p.2.content ++ "\n\n"))

/-- The `fileListingStr` of identify-abstractions.ts 286-291. -/
def fileListingFor (filesData : List FetchedFile) : String :=
  String.intercalate "\n" (filesData.enum.map (fun p => natDecString p.1 ++ " # " ++ p.2.path))

/-- The prompt template of `identifyAbstractions` (identify-abstractions.ts
295-332). -/
def identifyAbstractionsPrompt (filesData : List FetchedFile)
    (projectName language : String) (maxAbstractions : ℕ) : String :=
  "\nYour task is to identify the key abstractions in the provided codebase for a project named \"" ++ projectName ++ "\".\n" ++
  "An abstraction can be a function, class, module, interface, or a significant variable/constant that represents a core concept.\n" ++
  "Focus on abstractions that are central to understanding the project\x27s architecture and functionality.\n\n" ++
  "You will be given the content of several files from the project.\n" ++
  "Below is a list of the files provided, with their corresponding indices:\n" ++
  "<file_listing>\n" ++ fileListingFor filesData ++ "\n</file_listing>\n\n" ++
  "Please identify up to " ++ natDecString maxAbstractions ++ " key abstractions. For each abstraction, provide:\n" ++
  "1.  `name`: A concise and descriptive name for the abstraction.\n" ++
  "2.  `description`: A brief explanation of what the abstraction does or represents.\n" ++
  "3.  `file_indices`: A list of integer file indices where this abstraction is primarily defined or heavily used. Use the indices from the file listing above. For example, if an abstraction is defined in the first file (`0 # path/to/file1.js`) and used in the third (`2 # path/to/file3.js`), list `[0, 2]`. If it\x27s only in one file, provide a single index in the list, e.g., `[0]`.\n\n" ++
  (if language ≠ "english" then
    "IMPORTANT: Please provide the \x27name\x27 and \x27description\x27 fields in " ++ language ++
    ". The file paths and indices should remain as they are.\nExample for " ++ language ++
    ":\nname: (name in " ++ language ++ ")\ndescription: (description in " ++ language ++
    ")\nfile_indices: [0, 1]"
  else "") ++
  "\n\nPlease format your response as a YAML list. Each item in the list should be an object with the keys `name`, `description`, and `file_indices`.\n" ++
  "Do not include any explanations or text outside the YAML block.\n\n" ++
  "Example YAML output:\n```yaml\n- name: \"User Authentication\"\n  description: \"Handles user login, registration, and session management.\"\n  file_indices: [0, 2]\n- name: \"Database Connection\"\n  description: \"Manages the connection to the primary database.\"\n  file_indices: [1]\n```\n\n" ++
  "Here is the combined content of the project files:\n<file_contents>\n" ++ filesContextFor filesData ++ "\n</file_contents>\n\n" ++
  "Now, please provide the YAML list of abstractions.\n"

/-- Embedding of `identifyAbstractions` (identify-abstractions.ts
266-412): empty input short-circuits with no LLM call; otherwise one LLM
call, fenced-block-or-raw YAML parse, array check with the
singleton-object wrapping fallback, then the per-item validation loop. -/
def identifyAbstractions (filesData : List FetchedFile) (projectName : String)
    (llm : String → String) (yamlLoad : String → Except String JVal)
    (language : String := "english") (maxAbstractions : ℕ := 10) :
    Except IdentifyError (List Abstraction) × ℕ :=
  if filesData.isEmpty then (Except.ok [], 0)
  else
    let prompt := identifyAbstractionsPrompt filesData projectName language maxAbstractions
    let llmResponse := llm prompt
    let parsed : Except String JVal :=
      match extractYamlBlock llmResponse with
      | some block => yamlLoad block
      | none => yamlLoad llmResponse
    match parsed with
    | .error msg => (Except.error (IdentifyError.yamlError msg), 1)
    | .ok v =>
      let rawList? : Option (List JVal) :=
        match v with
        | .arr xs => some xs
        | .obj _ =>
          if jsTruthy (v.get ("name")) && jsTruthy (v.get ("description")) &&
              jsTruthy (v.get ("file_indices")) then some [v]
          else none
        | _ => none
      match rawList? with
      | some xs =>
        (Except.ok (validateRawAbstractions ((filesData.length : ℤ) - 1) xs), 1)
      | none => (Except.error IdentifyError.notAbstractionsArray, 1)

/-- Errors thrown by `analyzeRelationships` after the LLM call. -/
inductive AnalyzeError where
  | yamlError (msg : String)
  | notObject
  | badSummary
deriving DecidableEq

/-- Embedding of the per-item validation of the `for (const rawRel of
parsedResponse.relationships)` loop of `analyzeRelationships`
(analyze-relationships.ts 184-210): `none` models every `continue` and
the `catch` of a reference-resolution failure; note that the presence
check on `from_abstraction`/`to_abstraction` is a JS truthiness test. -/
def validateRelationship (maxIndex : ℤ) (rawRel : JVal) : Option Relationship :=
  let objLike := match rawRel with | .obj _ => true | .arr _ => true | _ => false
  if !objLike then none
  else
    match rawRel.get ("label") with
    | some (.str label) =>
      if (jsTrim label).isEmpty then none
      else
        if !(jsTruthy (rawRel.get ("from_abstraction"))) ||
            !(jsTruthy (rawRel.get ("to_abstraction"))) then none
        else
          match rawRel.get ("from_abstraction"), rawRel.get ("to_abstraction") with
          | some fv, some tv =>
            match parseAbstractionRef fv maxIndex with
            | .error _ => none
            | .ok fromIndex =>
              match parseAbstractionRef tv maxIndex with
              | .error _ => none
              | .ok toIndex => some ⟨fromIndex, toIndex, jsTrim label⟩
          | _, _ => none
    | _ => none

/-- Accumulated result of the relationship-validation loop. -/
def validateRelationships (maxIndex : ℤ) (items : List JVal) : List Relationship :=
  items.filterMap (validateRelationship maxIndex)

/-- The `abstractionsListing` of analyze-relationships.ts line 61. -/
def abstractionsListingFor (abstractions : List Abstraction) : String :=
  String.intercalate "\n"
    (abstractions.enum.map (fun p => natDecString p.1 ++ " # " ++ p.2.name))

/-- The deduplicated file-index set of analyze-relationships.ts 74-76
(JS `Set` iteration order is insertion order). -/
def uniqueFileIndicesOf (abstractions : List Abstraction) : List ℚ :=
  ((abstractions.map (fun a => a.fileIndices)).flatten).foldl
    (fun acc i => if i ∈ acc then acc else acc ++ [i]) []

/-- The `context` accumulation of analyze-relationships.ts 63-90. -/
def analyzeContextFor (abstractions : List Abstraction) (filesData : List FetchedFile) : String :=
  "Identified Abstractions:\n" ++
  String.join (abstractions.enum.map (fun p =>
    let relevantFilePaths := String.intercalate ", " (p.2.fileIndices.map (fun fileIdx =>
      match jsIndex filesData fileIdx with
      | some file =>
        if file.path = "" then "Unknown path for index " ++ ratToDisplay fileIdx else file.path
      | none => "Unknown path for index " ++ ratToDisplay fileIdx))
    "Abstraction Index: " ++ natDecString p.1 ++ "\n" ++
    "Name: " ++ p.2.name ++ "\n" ++
    "Description: " ++ p.2.description ++ "\n" ++
    "Relevant File Indices: [" ++
      String.intercalate ", " (p.2.fileIndices.map ratToDisplay) ++ "]\n" ++
    "Relevant File Paths: " ++ relevantFilePaths ++ "\n\n")) ++
  "Relevant File Snippets (Referenced by Index and Path):\n" ++
  (if (uniqueFileIndicesOf abstractions).isEmpty then
    "No specific file content referenced by abstractions.\n"
  else
    String.join ((uniqueFileIndicesOf abstractions).map (fun fileIdx =>
      match jsIndex filesData fileIdx with
      | some file =>
        "--- File Index " ++ ratToDisplay fileIdx ++ ": " ++ file.path ++ " ---\n" ++
          file.content ++ "\n\n"
      | none =>
        "--- File Index " ++ ratToDisplay fileIdx ++ ": Path not found (error in data) ---\n\n")))

/-- The prompt template of `analyzeRelationships` (analyze-relationships.ts
95-140). -/
def analyzeRelationshipsPrompt (abstractions : List Abstraction)
    (filesData : List FetchedFile) (projectName language : String) : String :=
  "\nYour task is to analyze the provided software project named \"" ++ projectName ++ "\" based on a list of identified key abstractions and relevant file snippets.\n" ++
  "Your goal is to understand how these abstractions interact and to provide a high-level summary of the project.\n\n" ++
  "You are given:\n" ++
  "1.  A list of identified abstractions with their indices, names, descriptions, and the file indices they pertain to.\n" ++
  "2.  Content snippets from the relevant files.\n\n" ++
  "Please perform the following:\n" ++
  "A.  Write a concise high-level `summary` of the project in " ++ language ++ ". This summary should explain the project\x27s main purpose and how the key abstractions contribute to it.\n" ++
  "B.  Identify and list the key `relationships` between these abstractions.\n" ++
  "    *   Each relationship should specify the source abstraction (`from_abstraction`) and the target abstraction (`to_abstraction`). Use the format \"index # Name\" (e.g., \"0 # User Authentication\") or just the index for these fields.\n" ++
  "    *   Provide a descriptive `label` for each relationship in " ++ language ++ " (e.g., \"sends data to\", \"depends on\", \"invokes method of\").\n" ++
  "    *   IMPORTANT: Ensure that every abstraction listed below is involved in at least one relationship, either as a source or a target. Try to capture the most significant interactions.\n\n" ++
  "List of Identified Abstractions:\n<abstractions_list>\n" ++ abstractionsListingFor abstractions ++ "\n</abstractions_list>\n\n" ++
  "Please format your entire response as a single YAML object with two top-level keys: `summary` and `relationships`.\n" ++
  "The `relationships` key should contain a list of objects, each with `from_abstraction`, `to_abstraction`, and `label`.\n\n" ++
  "Example YAML output:\n```yaml\nsummary: \"This project is a web server that handles user authentication and data processing. The User Authentication module manages logins, while the Data Processor performs calculations on user-provided data.\"\nrelationships:\n  - from_abstraction: \"0 # User Authentication\"\n    to_abstraction: \"1 # Data Processor\"\n    label: \"passes authenticated user data to\"\n  - from_abstraction: \"1 # Data Processor\"\n    to_abstraction: \"2 # Database Interface\"\n    label: \"fetches records using\"\n  - from_abstraction: \"0 # User Authentication\" # Example of an abstraction involved in multiple relationships\n    to_abstraction: \"2 # Database Interface\"\n    label: \"stores user credentials via\"\n```\n" ++
  (if language ≠ "english" then
    "\nReminder: The \x27summary\x27 and relationship \x27label\x27 fields MUST be in " ++ language ++ ". Abstraction names/indices in the relationship list should remain as provided in the <abstractions_list>.\n"
  else "") ++
  "\n\nHere is the context including abstractions details and file contents:\n<project_context>\n" ++ analyzeContextFor abstractions filesData ++ "\n</project_context>\n\n" ++
  "Now, please provide the YAML output.\n"

/-- Embedding of `analyzeRelationships` (analyze-relationships.ts 37-217):
empty abstractions short-circuit with no LLM call; otherwise one LLM
call, fenced-block-or-raw YAML parse, object and summary checks (fatal),
`relationships` defaulting to `[]` when absent or not an array, then the
per-item validation loop. -/
def analyzeRelationships (abstractions : List Abstraction) (filesData : List FetchedFile)
    (projectName : String) (llm : String → String) (yamlLoad : String → Except String JVal)
    (language : String := "english") : Except AnalyzeError ProjectAnalysis × ℕ :=
  if abstractions.isEmpty then
    (Except.ok ⟨"No abstractions provided to analyze.", []⟩, 0)
  else
    let prompt := analyzeRelationshipsPrompt abstractions filesData projectName language
    let llmResponse := llm prompt
    let parsed : Except String JVal :=
      match extractYamlBlock llmResponse with
      | some block => yamlLoad block
      | none => yamlLoad llmResponse
    match parsed with
    | .error msg => (Except.error (AnalyzeError.yamlError msg), 1)
    | .ok v =>
      let objLike := match v with | .obj _ => true | .arr _ => true | _ => false
      if !objLike then (Except.error AnalyzeError.notObject, 1)
      else
        match v.get ("summary") with
        | some (.str summaryStr) =>
          if (jsTrim summaryStr).isEmpty then (Except.error AnalyzeError.badSummary, 1)
          else
            let rels := match v.get ("relationships") with
              | some (.arr xs) => xs
              | _ => []
            (Except.ok ⟨jsTrim summaryStr,
              validateRelationships ((abstractions.length : ℤ) - 1) rels⟩, 1)
        | _ => (Except.error AnalyzeError.badSummary, 1)

/-- Embedding of `sanitizeFilename` (write-chapters.ts 12-29): two-digit
zero-padded chapter number, underscore, slug, `.md`; the slug is the
trimmed name lower-cased, whitespace runs replaced by single
underscores, characters outside `[A-Za-z0-9_.-]` removed, and `chapter`
substituted when nothing but underscores remains. -/
def sanitizeFilename (name : String) (chapterNum : ℕ) : String :=
  let prefixStr := padStart2 (natDecDigits chapterNum)
  let trimmedName := jsTrimList name.toList
  let sanitized := (collapseWs false (trimmedName.map jsToLower)).filter allowedChar
  let sanitized2 :=
    if (sanitized.filter (fun c => c != '_')).isEmpty then "chapter".toList else sanitized
  String.mk (prefixStr ++ '_' :: (sanitized2 ++ ".md".toList))

/-- Display name used for a chapter by `writeChapters` (write-chapters.ts
line 59): the abstraction name, with the JS `||` fallback to
`Unknown Abstraction _` when the abstraction is absent — or when its
name is the empty string, which is falsy. -/
def chapterDisplayName (abstractions : List Abstraction) (absIndex : ℚ) : String :=
  match jsIndex abstractions absIndex with
  | some a =>
    if a.name = "" then "Unknown Abstraction " ++ ratToDisplay absIndex else a.name
  | none => "Unknown Abstraction " ++ ratToDisplay absIndex

/-- The precomputed `chapterLinkInfos` of write-chapters.ts 58-66. -/
def chapterLinkInfosFor (chapterOrder : List ℚ) (abstractions : List Abstraction) :
    List ChapterLinkInfo :=
  chapterOrder.enum.map (fun p =>
    let abstractionName := chapterDisplayName abstractions p.2
    { num := p.1 + 1
      name := abstractionName
      filename := sanitizeFilename abstractionName (p.1 + 1) })

/-- Lookup in the `chapterFilenamesMap` of write-chapters.ts 68-71: the
map is keyed by abstraction index and written in `chapterOrder`
sequence, so a later occurrence of a key overwrites an earlier one —
hence the search from the end. -/
def chapterFilenamesMapGet (entries : List (ℚ × ChapterLinkInfo)) (k : ℚ) :
    Option ChapterLinkInfo :=
  (entries.reverse.find? (fun e => decide (e.1 = k))).map (fun e => e.2)

/-- Name of an optional chapter link with the JS `?.name || fallback`
pattern (write-chapters.ts line 172). -/
def optLinkName (l : Option ChapterLinkInfo) (fallback : String) : String :=
  match l with
  | some p => if p.name = "" then fallback else p.name
  | none => fallback

/-- Filename of an optional chapter link with the `?.filename || fallback`
pattern (write-chapters.ts line 172). -/
def optLinkFilename (l : Option ChapterLinkInfo) (fallback : String) : String :=
  match l with
  | some p => if p.filename = "" then fallback else p.filename
  | none => fallback

/-- The `transitionsContext` of write-chapters.ts 111-117. -/
def transitionsContextFor (prevLink nextLink : Option ChapterLinkInfo) : String :=
  (match prevLink with
   | some p =>
     "You have just learned about \"" ++ p.name ++ "\" in the previous chapter ([" ++
       p.name ++ "](" ++ p.filename ++ ")).\n"
   | none => "") ++
  (match nextLink with
   | some n =>
     "In the next chapter ([" ++ n.name ++ "](" ++ n.filename ++ ")), we will explore \"" ++
       n.name ++ "\".\n"
   | none => "")

/-- The prompt template of `writeChapters` (write-chapters.ts 122-190). -/
def writeChapterPrompt (projectName abstractionName abstractionDescription : String)
    (chapterNum : ℕ) (fullChapterListing summariesJoined relevantCodeSnippets : String)
    (prevChapterLink nextChapterLink : Option ChapterLinkInfo) (language : String) : String :=
  "\nYour task is to write a detailed chapter for a software tutorial about the project \"" ++ projectName ++ "\".\n" ++
  "This chapter focuses on the abstraction: \"" ++ abstractionName ++ "\".\n" ++
  "Its general description is: \"" ++ abstractionDescription ++ "\".\n" ++
  "The chapter number is: " ++ natDecString chapterNum ++ ".\n\n" ++
  "The tutorial will have the following chapters (current chapter is " ++ natDecString chapterNum ++ ". " ++ abstractionName ++ "):\n" ++
  "<full_chapter_listing>\n" ++ fullChapterListing ++ "\n</full_chapter_listing>\n\n" ++
  "Context from previously written chapters (summaries or key points):\n" ++
  "<previous_chapters_summary>\n" ++ summariesJoined ++ "\n</previous_chapters_summary>\n\n" ++
  "Relevant code snippets for \"" ++ abstractionName ++ "\":\n" ++
  "<code_snippets>\n" ++ relevantCodeSnippets ++ "\n</code_snippets>\n\n" ++
  "Please write the chapter content in Markdown format. The chapter MUST be written entirely in " ++ language ++ ".\n" ++
  "This includes all explanatory text, comments in code examples, and any other textual content.\n\n" ++
  "Chapter Structure and Guidelines:\n\n" ++
  "1.  **Heading**: Start with a clear heading for the chapter (e.g., `# Chapter " ++ natDecString chapterNum ++ ": " ++ abstractionName ++ "`).\n" ++
  "2.  **Introduction**:\n" ++
  "    *   Briefly introduce the abstraction and its purpose in the project.\n" ++
  "    *   State the chapter\x27s learning objectives.\n" ++
  "    *   **Transitions**: Smoothly transition from the previous chapter and set expectations for the next.\n" ++
  "        *   " ++ (match prevChapterLink with
    | some p => "Reference the previous chapter: \"[" ++ p.name ++ "](" ++ p.filename ++ ")\"."
    | none => "This is the first chapter.") ++ "\n" ++
  "        *   " ++ (match nextChapterLink with
    | some n => "Tease the next chapter: \"[" ++ n.name ++ "](" ++ n.filename ++ ")\"."
    | none => "This is the last chapter.") ++ "\n" ++
  "        *   Use this context: " ++ transitionsContextFor prevChapterLink nextChapterLink ++ "\n" ++
  "3.  **Motivation**: Explain *why* this abstraction is important and what problems it solves within \"" ++ projectName ++ "\".\n" ++
  "4.  **Concept Breakdown**:\n" ++
  "    *   Explain the core concepts of the abstraction in detail.\n" ++
  "    *   Use analogies or real-world examples if helpful.\n" ++
  "    *   If the abstraction interacts with other core abstractions from the full chapter listing, link to them using their generated filenames (e.g., `[Other Abstraction Name](filename_for_other_abstraction.md)`).\n" ++
  "5.  **Usage Examples (if applicable)**:\n" ++
  "    *   Show simple, clear examples of how to use this abstraction.\n" ++
  "    *   Provide code snippets in Markdown code blocks. Keep them short, focused, and well-commented (comments also in " ++ language ++ ").\n" ++
  "    *   Explain the code examples thoroughly.\n" ++
  "6.  **Internal Implementation (if relevant and insightful)**:\n" ++
  "    *   Briefly explain key aspects of its internal workings if it helps understanding. Do not overwhelm with details.\n" ++
  "    *   Consider using Mermaid sequence diagrams (```mermaid\\nsequenceDiagram\\n...```) or flowcharts (```mermaid\\nflowchart TD\\n...```) if they clarify interactions or logic. Ensure diagram syntax is correct and comments/text within diagrams are in " ++ language ++ ".\n" ++
  "7.  **Code Blocks**:\n" ++
  "    *   Code should be simplified for clarity. Focus on the concept being explained.\n" ++
  "    *   All comments within code blocks MUST be in " ++ language ++ ".\n" ++
  "    *   Use appropriate language tags for syntax highlighting (e.g., ```typescript).\n" ++
  "8.  **Linking**: When mentioning other core abstractions that have their own chapters (see full chapter listing), link to them using their markdown filenames. E.g., \"As we saw in [" ++ optLinkName prevChapterLink ("a previous chapter") ++ "](" ++ optLinkFilename prevChapterLink ("previous_chapter.md") ++ "), and we will see how it connects to [" ++ optLinkName nextChapterLink ("a future chapter") ++ "](" ++ optLinkFilename nextChapterLink ("next_chapter.md") ++ ").\"\n" ++
  "9.  **Diagrams (Optional but encouraged for complex interactions)**:\n" ++
  "    *   Use Mermaid diagrams for flowcharts, sequence diagrams, class diagrams, etc., where appropriate. Ensure diagram syntax is correct and comments/text within diagrams are in " ++ language ++ ". E.g. ```mermaid\\nflowchart TD\\nA --> B\\n```\n" ++
  "    *   Ensure any text within diagrams (nodes, labels, comments) is in " ++ language ++ ".\n" ++
  "10. **Tone**: Maintain a welcoming, encouraging, and clear tone. Assume the reader is a developer trying to understand \"" ++ projectName ++ "\".\n" ++
  "11. **Conclusion**:\n" ++
  "    *   Summarize what was learned in the chapter.\n" ++
  "    *   Briefly reiterate how this abstraction fits into the bigger picture of \"" ++ projectName ++ "\".\n" ++
  "    *   Transition to the next chapter if applicable.\n\n" ++
  "IMPORTANT Multi-language Instructions:\n" ++
  "- The entire chapter content, including headings, explanatory text, analogies, code comments, and any text in diagrams, MUST be in " ++ language ++ ".\n" ++
  "- If \"" ++ abstractionName ++ "\" or \"" ++ abstractionDescription ++ "\" are in English and the target language is different, translate them appropriately for use within the chapter text. However, the primary chapter heading should still be based on the original \"" ++ abstractionName ++ "\" for consistency in structure, perhaps with a translated subtitle if natural. For example: `# Chapter " ++ natDecString chapterNum ++ ": " ++ abstractionName ++ " (Título en " ++ language ++ ")`.\n" ++
  "- When linking to other chapters, use their original names for the link text as provided in `<full_chapter_listing>` but ensure the link path uses the generated filename. E.g., `[Original Chapter Name X](0X_filename_x.md)`.\n\n" ++
  "Now, please generate the Markdown content for Chapter " ++ natDecString chapterNum ++ ": \"" ++ abstractionName ++ "\".\n" ++
  "Do not include the prompt or any other text outside the chapter\x27s Markdown content itself.\n" ++
  "Start directly with the chapter heading.\n"

/-- Per-run context of the chapter-writing loop (everything computed once
before the `for` loop of write-chapters.ts and the collaborators). -/
structure WriteCtx where
  abstractions : List Abstraction
  filesData : List FetchedFile
  projectName : String
  language : String
  llm : String → String
  chapterOrderLen : ℕ
  infos : List ChapterLinkInfo
  entries : List (ℚ × ChapterLinkInfo)
  fullChapterListing : String

/-- The `relevantCodeSnippets` accumulation of write-chapters.ts 93-105. -/
def relevantCodeSnippetsFor (filesData : List FetchedFile) (a : Abstraction) : String :=
  if a.fileIndices.isEmpty then
    "No specific code snippets directly associated with this abstraction by index. Focus on its conceptual role based on its description and relationships.\n"
  else
    String.join (a.fileIndices.map (fun fileIdx =>
      match jsIndex filesData fileIdx with
      | some file => "--- Code from " ++ file.path ++ " ---\n" ++ file.content ++ "\n\n"
      | none =>
        "--- Code from file index " ++ ratToDisplay fileIdx ++ " (Path not found) ---\n\n"))

/-- Embedding of the `for (let i = 0; ...)` loop of `writeChapters`
(write-chapters.ts 78-228), processing the enumerated chapter order with
the running `chaptersWrittenSoFarSummary` accumulator: an unresolvable
abstraction index is skipped (no output, no LLM call, no renumbering);
an emitted chapter gets `chapterNumber = i + 1`, the filename precomputed
for its abstraction index, and LLM content with the heading repair.  (The
source file contains a leftover duplicate of the LLM-call statement using
an unimported `callLlm`, a dead remnant of a refactor; the operative
`llmProvider.generateContent` call is the one modelled.) -/
def writeChaptersLoop (ctx : WriteCtx) :
    List (ℕ × ℚ) → List String → List ChapterOutput × ℕ
  | [], _ => ([], 0)
  | (i, abstractionIndex) :: rest, summaries =>
    match jsIndex ctx.abstractions abstractionIndex with
    | none => writeChaptersLoop ctx rest summaries
    | some currentAbstraction =>
      let chapterNum := i + 1
      let currentChapterLinkInfo :=
        (chapterFilenamesMapGet ctx.entries abstractionIndex).getD ⟨0, "", ""⟩
      let prevChapterLink := if 0 < i then ctx.infos[i - 1]? else none
      let nextChapterLink := if i < ctx.chapterOrderLen - 1 then ctx.infos[i + 1]? else none
      let prompt := writeChapterPrompt ctx.projectName currentAbstraction.name
        currentAbstraction.description chapterNum ctx.fullChapterListing
        (String.intercalate "\n\n---\n\n" summaries)
        (relevantCodeSnippetsFor ctx.filesData currentAbstraction)
        prevChapterLink nextChapterLink ctx.language
      let chapterContent0 := ctx.llm prompt
      let chapterContent :=
        if !((jsTrim chapterContent0).startsWith ("#")) then
          "# Chapter " ++ natDecString chapterNum ++ ": " ++ currentAbstraction.name ++
            "\n\n" ++ chapterContent0
        else chapterContent0
      let newSummary := "## Summary of Chapter " ++ natDecString chapterNum ++ ": " ++
        currentAbstraction.name ++ "\n" ++ chapterContent.take 500 ++ "..."
      let out : ChapterOutput :=
        ⟨chapterNum, abstractionIndex, currentAbstraction.name, chapterContent,
          currentChapterLinkInfo.filename⟩
      let r := writeChaptersLoop ctx rest (summaries ++ [newSummary])
      (out :: r.1, r.2 + 1)

/-- Embedding of `writeChapters` (write-chapters.ts 31-232): empty
`chapterOrder` or empty `abstractions` short-circuit with no LLM calls;
otherwise the link-info table, the filename map and the full chapter
listing are precomputed and the sequential loop runs. -/
def writeChapters (chapterOrder : List ℚ) (abstractions : List Abstraction)
    (filesData : List FetchedFile) (projectName : String) (llm : String → String)
    (language : String := "english") : List ChapterOutput × ℕ :=
  if chapterOrder.isEmpty then ([], 0)
  else if abstractions.isEmpty then ([], 0)
  else
    let infos := chapterLinkInfosFor chapterOrder abstractions
    let entries := chapterOrder.zip infos
    let fullChapterListing := String.intercalate "\n" (infos.map (fun info =>
      natDecString info.num ++ ". [" ++ info.name ++ "](" ++ info.filename ++ ")"))
    writeChaptersLoop
      ⟨abstractions, filesData, projectName, language, llm, chapterOrder.length,
        infos, entries, fullChapterListing⟩
      chapterOrder.enum []

/-- Leading whitespace run of a character list. -/
def leadWsRun (xs : List Char) : List Char :=
  xs.takeWhile jsWs

/-- Trailing whitespace run of a character list. -/
def trailWsRun (xs : List Char) : List Char :=
  (xs.reverse.takeWhile jsWs).reverse

/-- Collapse only the internal whitespace runs of a list to single
underscores, leaving the leading and trailing runs alone.  After the
boundary runs are removed, every maximal whitespace run of the remaining
core is internal, so the core is collapsed with the run-collapsing
replacement. -/
def collapseInternalWs (xs : List Char) : List Char :=
  leadWsRun xs ++ collapseWs false (jsTrimList xs) ++ trailWsRun xs

/-- Slug of a chapter title as worded by the specification (claim C7):
the title lowercased, internal whitespace runs collapsed to single
underscores, then every character outside `[A-Za-z0-9_.-]` stripped,
with the literal `chapter` substituted when the result contains nothing
but underscores. -/
def specSlug (title : String) : List Char :=
  let lowered := title.toList.map jsToLower
  let collapsed := collapseInternalWs lowered
  let stripped := collapsed.filter allowedChar
  if (stripped.filter (fun c => c != '_')).isEmpty then "chapter".toList else stripped

/-- Chapter filename as worded by the specification (claim C7):
`"{n zero-padded to at least 2 digits}_{slug}.md"`. -/
def specFilename (title : String) (n : ℕ) : String :=
  String.mk (padStart2 (natDecDigits n) ++ '_' :: (specSlug title ++ ".md".toList))

/-- Raw values on which the three reference parsers can disagree: strings
whose leading character run contains no digit (claim C3). -/
def noLeadingDigitStr : JVal → Bool
  | .str s => (s.toList.takeWhile Char.isDigit).isEmpty
  | _ => false


lemma digitsVal_cons_zero (xs : List Char) : digitsVal ('0' :: xs) = digitsVal xs := rfl

lemma digitsVal_append_singleton (a : List Char) (c : Char) :
    digitsVal (a ++ [c]) = 10 * digitsVal a + (c.toNat - 48) := by
  simp [digitsVal, List.foldl_append]

lemma natDecDigitsAux_spec (fuel : ℕ) :
    ∀ n : ℕ, n < fuel →
      natDecDigitsAux fuel n ≠ [] ∧
      (∀ c ∈ natDecDigitsAux fuel n, c.isDigit = true) ∧
      digitsVal (natDecDigitsAux fuel n) = n := by
  induction fuel with
  | zero => intro n hn; omega
  | succ fuel ih =>
    intro n hn
    by_cases h10 : n < 10
    · refine ⟨by simp [natDecDigitsAux, h10], ?_, ?_⟩
      · intro c hc
        simp [natDecDigitsAux, h10] at hc
        subst hc
        interval_cases n <;> decide
      · simp only [natDecDigitsAux, if_pos h10]
        interval_cases n <;> decide
    · have hrec : n / 10 < fuel := by omega
      obtain ⟨hne, hdig, hval⟩ := ih (n / 10) hrec
      refine ⟨?_, ?_, ?_⟩
      · simp [natDecDigitsAux, h10]
      · intro c hc
        simp only [natDecDigitsAux, if_neg h10, List.mem_append, List.mem_singleton] at hc
        rcases hc with hc | hc
        · exact hdig c hc
        · subst hc
          have : n % 10 < 10 := Nat.mod_lt _ (by norm_num)
          interval_cases h : n % 10 <;> simp_all <;> decide
      · simp only [natDecDigitsAux, if_neg h10]
        rw [digitsVal_append_singleton, hval]
        have h1 : n % 10 < 10 := Nat.mod_lt _ (by norm_num)
        have h2 : (Nat.digitChar (n % 10)).toNat - 48 = n % 10 := by
          interval_cases h : n % 10 <;> decide
        omega

lemma natDecDigits_ne_nil (n : ℕ) : natDecDigits n ≠ [] :=
  (natDecDigitsAux_spec (n + 1) n (Nat.lt_succ_self n)).1

lemma natDecDigits_digits (n : ℕ) : ∀ c ∈ natDecDigits n, c.isDigit = true :=
  (natDecDigitsAux_spec (n + 1) n (Nat.lt_succ_self n)).2.1

lemma digitsVal_natDecDigits (n : ℕ) : digitsVal (natDecDigits n) = n :=
  (natDecDigitsAux_spec (n + 1) n (Nat.lt_succ_self n)).2.2

lemma takeWhile_append_stop {α : Type} (p : α → Bool) (xs : List α) (y : α) (ys : List α)
    (hxs : ∀ x ∈ xs, p x = true) (hy : p y = false) :
    (xs ++ y :: ys).takeWhile p = xs := by
  induction xs with
  | nil => simp [List.takeWhile, hy]
  | cons a as ihx =>
    have ha : p a = true := hxs a (by simp)
    simp [List.takeWhile, ha, ihx (fun x hx => hxs x (by simp [hx]))]

lemma padStart2_digits (n : ℕ) : ∀ c ∈ padStart2 (natDecDigits n), c.isDigit = true := by
  intro c hc
  unfold padStart2 at hc
  split at hc
  · exact natDecDigits_digits n c hc
  · simp only [List.mem_append] at hc
    rcases hc with hc | hc
    · have := List.eq_of_mem_replicate hc
      subst this; decide
    · exact natDecDigits_digits n c hc

lemma digitsVal_replicate_zero (k : ℕ) (xs : List Char) :
    digitsVal (List.replicate k '0' ++ xs) = digitsVal xs := by
  induction k with
  | zero => simp
  | succ k ihk => simpa [List.replicate_succ] using ihk

lemma digitsVal_padStart2 (n : ℕ) : digitsVal (padStart2 (natDecDigits n)) = n := by
  unfold padStart2
  split
  · exact digitsVal_natDecDigits n
  · rw [digitsVal_replicate_zero, digitsVal_natDecDigits]

lemma sanitizeFilename_extract (a : String) (n : ℕ) :
    (sanitizeFilename a n).toList.takeWhile Char.isDigit = padStart2 (natDecDigits n) := by
  unfold sanitizeFilename
  show (padStart2 (natDecDigits n) ++ '_' :: _).takeWhile Char.isDigit = _
  exact takeWhile_append_stop _ _ _ _ (padStart2_digits n) (by decide)

lemma sanitizeFilename_num_inj {a b : String} {n m : ℕ}
    (h : sanitizeFilename a n = sanitizeFilename b m) : n = m := by
  have h2 := congrArg (fun s : String => digitsVal (s.toList.takeWhile Char.isDigit)) h
  simp only [] at h2
  rw [sanitizeFilename_extract, sanitizeFilename_extract,
    digitsVal_padStart2, digitsVal_padStart2] at h2
  exact h2

lemma jsWs_jsToLower (c : Char) : jsWs (jsToLower c) = jsWs c := by
  unfold jsToLower
  split <;> rfl

lemma ws_not_allowed {c : Char} (h : jsWs c = true) : allowedChar c = false := by
  simp only [jsWs, Bool.or_eq_true, beq_iff_eq] at h
  rcases h with ((((h | h) | h) | h) | h) | h <;> subst h <;> decide

lemma filter_allowed_of_ws (xs : List Char) (h : ∀ x ∈ xs, jsWs x = true) :
    xs.filter allowedChar = [] := by
  rw [List.filter_eq_nil_iff]
  intro a ha
  simp [ws_not_allowed (h a ha)]

lemma map_jsToLower_dropWhile (xs : List Char) :
    (xs.map jsToLower).dropWhile jsWs = (xs.dropWhile jsWs).map jsToLower := by
  have hfun : (jsWs ∘ jsToLower) = jsWs := funext jsWs_jsToLower
  rw [List.dropWhile_map, hfun]

lemma jsTrimList_map_lower (xs : List Char) :
    jsTrimList (xs.map jsToLower) = (jsTrimList xs).map jsToLower := by
  unfold jsTrimList
  rw [map_jsToLower_dropWhile, ← List.map_reverse, map_jsToLower_dropWhile,
    ← List.map_reverse]

lemma filter_leadWsRun (l : List Char) : (leadWsRun l).filter allowedChar = [] :=
  filter_allowed_of_ws _ (fun _ hx => List.mem_takeWhile_imp hx)

lemma filter_trailWsRun (l : List Char) : (trailWsRun l).filter allowedChar = [] := by
  apply filter_allowed_of_ws
  intro x hx
  exact List.mem_takeWhile_imp (List.mem_reverse.1 hx)

lemma spec_stripped_eq (xs : List Char) :
    (collapseInternalWs (xs.map jsToLower)).filter allowedChar
      = (collapseWs false ((jsTrimList xs).map jsToLower)).filter allowedChar := by
  unfold collapseInternalWs
  rw [List.filter_append, List.filter_append, filter_leadWsRun, filter_trailWsRun,
    jsTrimList_map_lower]
  simp

lemma sanitizeFilename_eq_specFilename (title : String) (n : ℕ) :
    sanitizeFilename title n = specFilename title n := by
  simp only [sanitizeFilename, specFilename, specSlug]
  rw [spec_stripped_eq]

lemma validateFileIndex_eq_parseAbstractionRef :
    validateFileIndex = parseAbstractionRef := rfl

lemma decRef_takeWhile (i : ℕ) :
    (natDecString i ++ " # X").toList.takeWhile Char.isDigit = natDecDigits i := by
  show (natDecDigits i ++ (' ' :: '#' :: ' ' :: 'X' :: [])).takeWhile Char.isDigit = _
  exact takeWhile_append_stop _ _ _ _ (natDecDigits_digits i) (by decide)

lemma checkRefBounds_ok {m i : ℕ} (h : i ≤ m) :
    checkRefBounds (i : ℚ) (m : ℤ) = Except.ok (i : ℚ) := by
  unfold checkRefBounds
  rw [if_neg]
  push_cast
  intro hcon
  rcases hcon with hcon | hcon
  · exact absurd hcon (not_lt.2 (by positivity))
  · rw [gt_iff_lt] at hcon
    exact absurd hcon (by exact_mod_cast Nat.not_lt.2 h)

lemma validateFileIndex_num_ok {m i : ℕ} (h : i ≤ m) :
    validateFileIndex (JVal.num (i : ℚ)) (m : ℤ) = Except.ok (i : ℚ) := by
  simp only [validateFileIndex]
  exact checkRefBounds_ok h

lemma validateFileIndex_str_ok {m i : ℕ} (h : i ≤ m) :
    validateFileIndex (JVal.str (natDecString i ++ " # X")) (m : ℤ) = Except.ok (i : ℚ) := by
  simp only [validateFileIndex, decRef_takeWhile]
  rw [if_neg (by simpa [List.isEmpty_iff] using natDecDigits_ne_nil i)]
  rw [digitsVal_natDecDigits]
  exact checkRefBounds_ok h

lemma parseForOrder_str_ok {m i : ℕ} (h : i ≤ m) :
    parseAbstractionRefForOrder (JVal.str (natDecString i ++ " # X")) (m : ℤ) =
      Except.ok (i : ℚ) := by
  simp only [parseAbstractionRefForOrder, decRef_takeWhile]
  rw [if_neg (by simpa [List.isEmpty_iff] using natDecDigits_ne_nil i)]
  rw [digitsVal_natDecDigits]
  exact checkRefBounds_ok h

lemma checkRefBounds_over (m : ℕ) :
    checkRefBounds ((m : ℚ) + 1) (m : ℤ) = Except.error (RefError.outOfBounds ((m : ℚ) + 1) (m : ℤ)) := by
  unfold checkRefBounds
  rw [if_pos]
  right
  push_cast
  linarith

lemma checkRefBounds_neg (m : ℕ) :
    checkRefBounds (-1 : ℚ) (m : ℤ) = Except.error (RefError.outOfBounds (-1 : ℚ) (m : ℤ)) := by
  unfold checkRefBounds
  rw [if_pos]
  left
  norm_num

lemma abc_takeWhile : "abc".toList.takeWhile Char.isDigit = [] := by decide

lemma abc_parseInt : jsParseIntRadix10 "abc" = none := by decide

lemma mapExcept_error_of_mem {maxIdx : ℤ} {idxs : List JVal}
    (h : ∃ ix ∈ idxs, isErr (validateFileIndex ix maxIdx) = true) :
    ∃ e, mapExcept (fun idx => validateFileIndex idx maxIdx) idxs = Except.error e := by
  induction idxs with
  | nil => simp at h
  | cons a as iha =>
    rcases h with ⟨ix, hmem, herr⟩
    rcases List.mem_cons.1 hmem with rfl | hmem2
    · cases hva : validateFileIndex ix maxIdx with
      | error e => exact ⟨e, by simp [mapExcept, hva]⟩
      | ok q => rw [hva] at herr; simp [isErr] at herr
    · cases hva : validateFileIndex a maxIdx with
      | error e => exact ⟨e, by simp [mapExcept, hva]⟩
      | ok q =>
        obtain ⟨e, he⟩ := iha ⟨ix, hmem2, herr⟩
        exact ⟨e, by simp [mapExcept, hva, he]⟩

lemma validateRawAbstraction_none_of_badIndex {maxIdx : ℤ} {bad : JVal} {idxs : List JVal}
    (hfi : bad.get ("file_indices") = some (JVal.arr idxs))
    (hbad : ∃ ix ∈ idxs, isErr (validateFileIndex ix maxIdx) = true) :
    validateRawAbstraction maxIdx bad = none := by
  cases bad
  case obj fields =>
    simp only [validateRawAbstraction, Bool.not_true, Bool.false_eq_true, if_false]
    cases hn : (JVal.obj fields).get ("name") with
    | none => rfl
    | some nv =>
      cases nv <;> try rfl
      next name =>
      by_cases hne : (jsTrim name).isEmpty
      · simp [hne]
      · simp only [hne, Bool.false_eq_true, if_false]
        cases hd : (JVal.obj fields).get ("description") with
        | none => rfl
        | some dv =>
          cases dv <;> try rfl
          next descr =>
          by_cases hde : (jsTrim descr).isEmpty
          · simp [hde]
          · simp only [hde, Bool.false_eq_true, if_false]
            rw [hfi]
            have hnonempty : idxs.isEmpty = false := by
              rcases hbad with ⟨ix, hmem, _⟩
              simp [List.isEmpty_iff, List.ne_nil_of_mem hmem]
            simp only [hnonempty, Bool.false_eq_true, if_false]
            obtain ⟨e, he⟩ := mapExcept_error_of_mem hbad
            rw [he]
  all_goals simp [JVal.get] at hfi

/-- Claim C10: a parsed abstraction item one of whose `file_indices`
elements is rejected by the reference parser is omitted entirely by
`identifyAbstractions` — it contributes nothing to the output — while
every other item of the batch is validated as usual, and the function
returns `Except.ok` (it does not throw). -/
theorem C10_bad_item_skipped (maxIdx : ℤ) (pre suf : List JVal) (bad : JVal) (idxs : List JVal)
    (hfi : bad.get ("file_indices") = some (JVal.arr idxs))
    (hbad : ∃ ix ∈ idxs, isErr (validateFileIndex ix maxIdx) = true) :
    validateRawAbstraction maxIdx bad = none ∧
    validateRawAbstractions maxIdx (pre ++ bad :: suf)
      = validateRawAbstractions maxIdx pre ++ validateRawAbstractions maxIdx suf ∧
    ∀ (filesData : List FetchedFile) (pn : String) (llm : String → String)
      (lang : String) (mx : ℕ),
      filesData ≠ [] → maxIdx = (filesData.length : ℤ) - 1 →
      identifyAbstractions filesData pn llm
          (fun _ => Except.ok (JVal.arr (pre ++ bad :: suf))) lang mx
        = (Except.ok (validateRawAbstractions maxIdx pre ++ validateRawAbstractions maxIdx suf), 1) := by
  have hnone := validateRawAbstraction_none_of_badIndex hfi hbad
  have hsplice : validateRawAbstractions maxIdx (pre ++ bad :: suf)
      = validateRawAbstractions maxIdx pre ++ validateRawAbstractions maxIdx suf := by
    unfold validateRawAbstractions
    rw [List.filterMap_append, List.filterMap_cons, hnone]
  refine ⟨hnone, hsplice, ?_⟩
  intro fd pn llm lang mx hfd hmax
  subst hmax
  simp only [identifyAbstractions]
  rw [if_neg (by simpa [List.isEmpty_iff] using hfd)]
  cases hE : extractYamlBlock (llm (identifyAbstractionsPrompt fd pn lang mx)) <;>
    simp only [hE, hsplice]

lemma jsIndex_nil {α : Type} (q : ℚ) : jsIndex ([] : List α) q = none := by
  unfold jsIndex
  split <;> simp

lemma filterMap_if_eq {α β : Type _} (l : List α) (p : α → Bool) (g : α → β) :
    l.filterMap (fun a => if p a then some (g a) else none) = (l.filter p).map g := by
  induction l with
  | nil => rfl
  | cons a as iha => by_cases h : p a <;> simp [List.filterMap_cons, List.filter_cons, h, iha]

lemma writeChaptersLoop_proj (ctx : WriteCtx) (ps : List (ℕ × ℚ)) :
    ∀ (summaries : List String),
      ((writeChaptersLoop ctx ps summaries).1).map (fun o => (o.chapterNumber, o.abstractionIndex))
        = ps.filterMap (fun p =>
            if (jsIndex ctx.abstractions p.2).isSome then some (p.1 + 1, p.2) else none) := by
  induction ps with
  | nil => intro summaries; rfl
  | cons hd tl ih =>
    intro summaries
    obtain ⟨i, a⟩ := hd
    cases hja : jsIndex ctx.abstractions a with
    | none => simp [writeChaptersLoop, hja, List.filterMap_cons, ih]
    | some ab => simp [writeChaptersLoop, hja, List.filterMap_cons, ih]

lemma enum_filter_snd_length {α : Type} (l : List α) (f : α → Bool) :
    (l.enum.filter (fun p => f p.2)).length = l.countP f := by
  rw [← List.countP_eq_length_filter]
  have h1 : List.countP (fun p => f p.2) l.enum
      = List.countP f (l.enum.map Prod.snd) := by
    rw [List.countP_map]
    rfl
  rw [h1, List.enum_map_snd]

/-- Claim C9: `writeChapters` emits, for each position `i` of
`chapterOrder` whose abstraction index resolves, a chapter with
`chapterNumber = i + 1` and `abstractionIndex = chapterOrder[i]`;
unresolvable positions are skipped without renumbering (the projection
equals a `filterMap` over the enumerated order), and the output length
is the number of resolving positions, at most `chapterOrder.length`. -/
theorem C9_chapter_skip_semantics (chapterOrder : List ℚ) (abstractions : List Abstraction)
    (filesData : List FetchedFile) (pn : String) (llm : String → String) (lang : String) :
    ((writeChapters chapterOrder abstractions filesData pn llm lang).1).map
        (fun o => (o.chapterNumber, o.abstractionIndex))
      = chapterOrder.enum.filterMap (fun p =>
          if (jsIndex abstractions p.2).isSome then some (p.1 + 1, p.2) else none) ∧
    ((writeChapters chapterOrder abstractions filesData pn llm lang).1).length
      = chapterOrder.countP (fun q => (jsIndex abstractions q).isSome) ∧
    ((writeChapters chapterOrder abstractions filesData pn llm lang).1).length
      ≤ chapterOrder.length := by
  have hproj : ((writeChapters chapterOrder abstractions filesData pn llm lang).1).map
        (fun o => (o.chapterNumber, o.abstractionIndex))
      = chapterOrder.enum.filterMap (fun p =>
          if (jsIndex abstractions p.2).isSome then some (p.1 + 1, p.2) else none) := by
    by_cases h1 : chapterOrder.isEmpty
    · have : chapterOrder = [] := List.isEmpty_iff.1 h1
      subst this
      rfl
    · by_cases h2 : abstractions.isEmpty
      · have : abstractions = [] := List.isEmpty_iff.1 h2
        subst this
        simp only [writeChapters, h1, Bool.false_eq_true, if_false, if_true]
        rw [List.filterMap_eq_nil_iff.2]
        · simp
        · intro p hp
          simp [jsIndex_nil]
      · simp only [writeChapters, h1, h2, Bool.false_eq_true, if_false]
        exact writeChaptersLoop_proj _ _ []
  have hlen : ((writeChapters chapterOrder abstractions filesData pn llm lang).1).length
      = chapterOrder.countP (fun q => (jsIndex abstractions q).isSome) := by
    have h2 := congrArg List.length hproj
    rw [List.length_map] at h2
    rw [h2, filterMap_if_eq, List.length_map]
    exact enum_filter_snd_length chapterOrder (fun q => (jsIndex abstractions q).isSome)
  refine ⟨hproj, hlen, ?_⟩
  rw [hlen]
  exact (List.countP_le_length _)

lemma mem_of_getElem_eq_some {α : Type _} {l : List α} {i : ℕ} {a : α} (h : l[i]? = some a) :
    a ∈ l := by
  obtain ⟨hlt, rfl⟩ := List.getElem?_eq_some.1 h
  exact List.getElem_mem hlt

lemma mapGet_of_nodup_fst :
    ∀ (entries : List (ℚ × ChapterLinkInfo)),
      (entries.map Prod.fst).Nodup →
      ∀ e ∈ entries, chapterFilenamesMapGet entries e.1 = some e.2 := by
  intro entries
  induction entries with
  | nil => intro _ e he; simp at he
  | cons hd tl ih =>
    intro hnd e he
    obtain ⟨k, v⟩ := hd
    rw [List.map_cons, List.nodup_cons] at hnd
    obtain ⟨hk, hnd'⟩ := hnd
    unfold chapterFilenamesMapGet
    rw [List.reverse_cons, List.find?_append]
    rcases List.mem_cons.1 he with rfl | he2
    · have hfail : tl.reverse.find? (fun p => decide (p.1 = (k, v).1)) = none := by
        rw [List.find?_eq_none]
        intro x hx
        simp only [decide_eq_true_eq]
        intro hxk
        apply hk
        have hmem : x.1 ∈ List.map Prod.fst tl :=
          List.mem_map_of_mem Prod.fst (List.mem_reverse.1 hx)
        rw [hxk] at hmem
        exact hmem
      rw [hfail]
      simp
    · have hrec := ih hnd' e he2
      unfold chapterFilenamesMapGet at hrec
      cases hfind : tl.reverse.find? (fun p => decide (p.1 = e.1)) with
      | none => rw [hfind] at hrec; simp at hrec
      | some w =>
        rw [hfind] at hrec
        simpa [Option.or] using hrec

lemma writeChaptersLoop_mem (ctx : WriteCtx) (ps : List (ℕ × ℚ)) :
    ∀ (summaries : List String) (o : ChapterOutput),
      o ∈ (writeChaptersLoop ctx ps summaries).1 →
      ∃ i a, (i, a) ∈ ps ∧ (jsIndex ctx.abstractions a).isSome = true ∧
        o.chapterNumber = i + 1 ∧ o.abstractionIndex = a ∧
        o.filename = ((chapterFilenamesMapGet ctx.entries a).getD ⟨0, "", ""⟩).filename := by
  induction ps with
  | nil => intro summaries o ho; simp [writeChaptersLoop] at ho
  | cons hd tl ih =>
    intro summaries o ho
    obtain ⟨i, a⟩ := hd
    cases hja : jsIndex ctx.abstractions a with
    | none =>
      rw [writeChaptersLoop, hja] at ho
      obtain ⟨i', a', hmem, h2, h3, h4, h5⟩ := ih summaries o ho
      exact ⟨i', a', List.mem_cons_of_mem _ hmem, h2, h3, h4, h5⟩
    | some ab =>
      rw [writeChaptersLoop, hja] at ho
      simp only [List.mem_cons] at ho
      rcases ho with rfl | ho2
      · exact ⟨i, a, List.mem_cons_self _ _, by rw [hja]; rfl, rfl, rfl, rfl⟩
      · obtain ⟨i', a', hmem, h2, h3, h4, h5⟩ := ih _ o ho2
        exact ⟨i', a', List.mem_cons_of_mem _ hmem, h2, h3, h4, h5⟩

lemma loop_C8 (ctx : WriteCtx) (chapterOrder : List ℚ)
    (hnd : chapterOrder.Nodup)
    (hinfos : ctx.infos = chapterLinkInfosFor chapterOrder ctx.abstractions)
    (hentries : ctx.entries = chapterOrder.zip ctx.infos) (summaries : List String) :
    (((writeChaptersLoop ctx chapterOrder.enum summaries).1).map (fun o => o.filename)).Nodup ∧
    ∀ o ∈ (writeChaptersLoop ctx chapterOrder.enum summaries).1,
      o.filename = sanitizeFilename (chapterDisplayName ctx.abstractions o.abstractionIndex)
        o.chapterNumber := by
  have hprop : ∀ o ∈ (writeChaptersLoop ctx chapterOrder.enum summaries).1,
      o.filename = sanitizeFilename (chapterDisplayName ctx.abstractions o.abstractionIndex)
        o.chapterNumber := by
    intro o ho
    obtain ⟨i, a, hmem, hsome, hnum, hidx, hfile⟩ :=
      writeChaptersLoop_mem ctx _ summaries o ho
    have hga : chapterOrder[i]? = some a := by
      have := List.mem_enum_iff_getElem?.1 hmem
      simpa using this
    have hinfo : ctx.infos[i]? = some
        ⟨i + 1, chapterDisplayName ctx.abstractions a,
          sanitizeFilename (chapterDisplayName ctx.abstractions a) (i + 1)⟩ := by
      rw [hinfos]
      unfold chapterLinkInfosFor
      rw [List.getElem?_map, List.getElem?_enum, hga]
      rfl
    have hentry : ctx.entries[i]? = some (a,
        ⟨i + 1, chapterDisplayName ctx.abstractions a,
          sanitizeFilename (chapterDisplayName ctx.abstractions a) (i + 1)⟩) := by
      rw [hentries]
      exact List.getElem?_zip_eq_some.2 ⟨hga, hinfo⟩
    have hmemE := mem_of_getElem_eq_some hentry
    have hfst : ctx.entries.map Prod.fst = chapterOrder := by
      rw [hentries]
      apply List.map_fst_zip
      rw [hinfos]
      unfold chapterLinkInfosFor
      simp
    have hget := mapGet_of_nodup_fst ctx.entries (by rw [hfst]; exact hnd) _ hmemE
    simp only at hget
    rw [hfile, hidx, hnum, hget]
    rfl
  refine ⟨?_, hprop⟩
  have hproj := writeChaptersLoop_proj ctx chapterOrder.enum summaries
  have hnums : ((writeChaptersLoop ctx chapterOrder.enum summaries).1).map
        (fun o => o.chapterNumber)
      = (chapterOrder.enum.filter (fun p => (jsIndex ctx.abstractions p.2).isSome)).map
          (fun p => p.1 + 1) := by
    have h2 := congrArg (List.map Prod.fst) hproj
    rw [List.map_map, filterMap_if_eq, List.map_map] at h2
    exact h2
  have hnodupnums : (((writeChaptersLoop ctx chapterOrder.enum summaries).1).map
      (fun o => o.chapterNumber)).Nodup := by
    rw [hnums]
    apply List.Nodup.sublist (List.Sublist.map _ (List.filter_sublist _))
    have hre : chapterOrder.enum.map (fun p : ℕ × ℚ => p.1 + 1)
        = (List.range chapterOrder.length).map (fun i => i + 1) := by
      rw [← List.enum_map_fst chapterOrder, List.map_map]
      rfl
    rw [hre]
    exact (List.nodup_range _).map (fun a b h => by omega)
  have hinjnum := List.inj_on_of_nodup_map hnodupnums
  have houtnodup : ((writeChaptersLoop ctx chapterOrder.enum summaries).1).Nodup :=
    List.Nodup.of_map _ hnodupnums
  apply List.Nodup.map_on ?_ houtnodup
  intro x hx y hy hfname
  rw [hprop x hx, hprop y hy] at hfname
  exact hinjnum hx hy (sanitizeFilename_num_inj hfname)

/-- Claim C1 (code evaluation at the failing input): with two
abstractions and an LLM response whose parsed top level is the array
`[0.5, 1]`, `orderChapters` succeeds and returns `[0.5, 1]` — the length
check alone passes — even though the resolved elements are not a
permutation of `\x7b0, 1\x7d` (the index `0` is missing).  The claim's
success-only-for-exact-permutations requirement is violated by the code.
(`Rat.mk' 1 2 _ _` is the rational 1/2, the parsed JS number `0.5`.) -/
theorem C1_order_accepts_non_permutation :
    orderChapters [⟨"A", "dA", []⟩, ⟨"B", "dB", []⟩] none "proj"
        (fun _ => "resp")
        (fun _ => Except.ok (JVal.arr
          [JVal.num (Rat.mk' 1 2 (by decide) (by norm_num [Nat.Coprime])), JVal.num 1]))
      = (Except.ok [Rat.mk' 1 2 (by decide) (by norm_num [Nat.Coprime]), 1], 1) ∧
    (0 : ℚ) ∉ [Rat.mk' 1 2 (by decide) (by norm_num [Nat.Coprime]), (1 : ℚ)] := by
  constructor
  · rfl
  · decide

/-- Claim C4 (code evaluation at the failing input): a parsed
relationship item with `from_abstraction` the native number `0`,
`to_abstraction` the native number `1` and the non-empty label `"uses"`
is nevertheless dropped by `analyzeRelationships`, because the presence
check `!rawRel.from_abstraction` treats the number `0` as a missing
field (JS falsiness); the reference `0` itself resolves fine. -/
theorem C4_zero_index_edge_dropped :
    analyzeRelationships [⟨"A", "dA", []⟩, ⟨"B", "dB", []⟩] [] "proj"
        (fun _ => "resp")
        (fun _ => Except.ok (JVal.obj
          [("summary", JVal.str ("s")),
           ("relationships", JVal.arr [JVal.obj
             [("from_abstraction", JVal.num 0),
              ("to_abstraction", JVal.num 1),
              ("label", JVal.str ("uses"))]])]))
      = (Except.ok ⟨"s", []⟩, 1) ∧
    parseAbstractionRef (JVal.num 0) (1 : ℤ) = Except.ok 0 ∧
    jsTruthy (some (JVal.num 0)) = false := by
  refine ⟨?_, rfl, by decide⟩
  rfl

/-- Claim C5 (code evaluation at the failing input): with three files,
a parsed abstraction whose `file_indices` is `[1.5]` is accepted by
`identifyAbstractions` and the returned `fileIndices` contains the
non-integer `1.5` — the bounds check passes and no integrality check
exists.  (`Rat.mk' 3 2 _ _` is the rational 3/2, the JS number `1.5`.) -/
theorem C5_non_integer_file_index_accepted :
    identifyAbstractions [⟨"a.ts", "xa"⟩, ⟨"b.ts", "xb"⟩, ⟨"c.ts", "xc"⟩] "proj"
        (fun _ => "resp")
        (fun _ => Except.ok (JVal.arr [JVal.obj
          [("name", JVal.str ("A")), ("description", JVal.str ("dA")),
           ("file_indices", JVal.arr
             [JVal.num (Rat.mk' 3 2 (by decide) (by norm_num [Nat.Coprime]))])]]))
      = (Except.ok [⟨"A", "dA", [Rat.mk' 3 2 (by decide) (by norm_num [Nat.Coprime])]⟩], 1) ∧
    ((Rat.mk' 3 2 (by decide) (by norm_num [Nat.Coprime])).den ≠ 1) := by
  constructor
  · rfl
  · decide

/-- Claim C6: for every LLM provider and YAML parser,
`identifyAbstractions` on an empty file list returns `[]`,
`analyzeRelationships` on an empty abstraction list returns the fixed
summary with no relationships, and `orderChapters` on an empty
abstraction list returns `[]` — all with zero LLM calls. -/
theorem C6_empty_input_short_circuits (pn lang : String) (llm : String → String)
    (yamlLoad : String → Except String JVal) (mx : ℕ)
    (fd : List FetchedFile) (pa : Option ProjectAnalysis) :
    identifyAbstractions [] pn llm yamlLoad lang mx = (Except.ok [], 0) ∧
    analyzeRelationships [] fd pn llm yamlLoad lang
      = (Except.ok ⟨"No abstractions provided to analyze.", []⟩, 0) ∧
    orderChapters [] pa pn llm yamlLoad lang = (Except.ok [], 0) :=
  ⟨rfl, rfl, rfl⟩

/-- Claim C8 counterexample: for the duplicate-free order `[0]` and a
single abstraction whose name is the empty string, the emitted chapter
has filename `01_unknown_abstraction_0.md` (derived from the falsy-name
fallback label), not `sanitizeFilename "" 1 = "01_chapter.md"` as the
claim states. -/
theorem C8_filename_fallback_counterexample :
    ((writeChapters [0] [⟨"", "d", []⟩] [] "p" (fun _ => "r")).1.map
        (fun o => (o.filename, o.chapterNumber, o.abstractionIndex)))
      = [("01_unknown_abstraction_0.md", 1, 0)] ∧
    sanitizeFilename ("") 1 = "01_chapter.md" ∧
    ("01_unknown_abstraction_0.md" : String) ≠ "01_chapter.md" ∧
    ([(0 : ℚ)]).Nodup := by
  refine ⟨?_, by decide, by decide, by decide⟩
  rfl

/-- Claim C8 as amended: for a duplicate-free `chapterOrder`, the
filenames of the chapters returned by `writeChapters` are pairwise
distinct, and each equals `sanitizeFilename` applied to the chapter
display name (the abstraction name, or the `Unknown Abstraction _`
fallback when that name is empty) and its chapter number. -/
theorem C8_filenames_unique_amended (chapterOrder : List ℚ) (abstractions : List Abstraction)
    (filesData : List FetchedFile) (pn : String) (llm : String → String) (lang : String)
    (hnd : chapterOrder.Nodup) :
    (((writeChapters chapterOrder abstractions filesData pn llm lang).1).map
        (fun o => o.filename)).Nodup ∧
    ∀ o ∈ (writeChapters chapterOrder abstractions filesData pn llm lang).1,
      o.filename = sanitizeFilename (chapterDisplayName abstractions o.abstractionIndex)
        o.chapterNumber := by
  by_cases h1 : chapterOrder.isEmpty = true
  · constructor
    · simp [writeChapters, h1]
    · intro o ho
      simp [writeChapters, h1] at ho
  · by_cases h2 : abstractions.isEmpty = true
    · constructor
      · simp [writeChapters, h1, h2]
      · intro o ho
        simp [writeChapters, h1, h2] at ho
    · have hw : writeChapters chapterOrder abstractions filesData pn llm lang
          = writeChaptersLoop
              ⟨abstractions, filesData, pn, lang, llm, chapterOrder.length,
                chapterLinkInfosFor chapterOrder abstractions,
                chapterOrder.zip (chapterLinkInfosFor chapterOrder abstractions),
                String.intercalate "\n" ((chapterLinkInfosFor chapterOrder abstractions).map
                  (fun info => natDecString info.num ++ ". [" ++ info.name ++ "](" ++
                    info.filename ++ ")"))⟩
              chapterOrder.enum [] := by
        simp only [writeChapters]
        rw [if_neg h1, if_neg h2]
      rw [hw]
      exact loop_C8 _ chapterOrder hnd rfl rfl []

/-- Claim C2: each of the three reference-parser instances
(`validateFileIndex`, `parseAbstractionRef`, `parseAbstractionRefForOrder`)
maps the native number `i` with `0 ≤ i ≤ maxIndex` to `i`, maps the
string `"\x7bi\x7d # X"` to `i`, and throws on the number `maxIndex + 1`, on
the number `-1`, and on the string `"abc"`. -/
theorem C2_reference_parser_contract (m i : ℕ) (h : i ≤ m) :
    (validateFileIndex (JVal.num (i : ℚ)) (m : ℤ) = Except.ok (i : ℚ) ∧
      parseAbstractionRef (JVal.num (i : ℚ)) (m : ℤ) = Except.ok (i : ℚ) ∧
      parseAbstractionRefForOrder (JVal.num (i : ℚ)) (m : ℤ) = Except.ok (i : ℚ)) ∧
    (validateFileIndex (JVal.str (natDecString i ++ " # X")) (m : ℤ) = Except.ok (i : ℚ) ∧
      parseAbstractionRef (JVal.str (natDecString i ++ " # X")) (m : ℤ) = Except.ok (i : ℚ) ∧
      parseAbstractionRefForOrder (JVal.str (natDecString i ++ " # X")) (m : ℤ)
        = Except.ok (i : ℚ)) ∧
    (isErr (validateFileIndex (JVal.num ((m : ℚ) + 1)) (m : ℤ)) = true ∧
      isErr (parseAbstractionRef (JVal.num ((m : ℚ) + 1)) (m : ℤ)) = true ∧
      isErr (parseAbstractionRefForOrder (JVal.num ((m : ℚ) + 1)) (m : ℤ)) = true) ∧
    (isErr (validateFileIndex (JVal.num (-1 : ℚ)) (m : ℤ)) = true ∧
      isErr (parseAbstractionRef (JVal.num (-1 : ℚ)) (m : ℤ)) = true ∧
      isErr (parseAbstractionRefForOrder (JVal.num (-1 : ℚ)) (m : ℤ)) = true) ∧
    (isErr (validateFileIndex (JVal.str ("abc")) (m : ℤ)) = true ∧
      isErr (parseAbstractionRef (JVal.str ("abc")) (m : ℤ)) = true ∧
      isErr (parseAbstractionRefForOrder (JVal.str ("abc")) (m : ℤ)) = true) := by
  have hnum : validateFileIndex (JVal.num (i : ℚ)) (m : ℤ) = Except.ok (i : ℚ) :=
    validateFileIndex_num_ok h
  have hstr := validateFileIndex_str_ok h
  have hover : isErr (validateFileIndex (JVal.num ((m : ℚ) + 1)) (m : ℤ)) = true := by
    simp only [validateFileIndex, checkRefBounds_over m]
    rfl
  have hneg : isErr (validateFileIndex (JVal.num (-1 : ℚ)) (m : ℤ)) = true := by
    simp only [validateFileIndex, checkRefBounds_neg m]
    rfl
  have habc : isErr (validateFileIndex (JVal.str ("abc")) (m : ℤ)) = true := by
    simp [validateFileIndex, abc_takeWhile, isErr]
  have heq1 : parseAbstractionRef (JVal.num (i : ℚ)) (m : ℤ)
      = validateFileIndex (JVal.num (i : ℚ)) (m : ℤ) := rfl
  refine ⟨⟨hnum, hnum, ?_⟩, ⟨hstr, hstr, parseForOrder_str_ok h⟩,
    ⟨hover, hover, hover⟩, ⟨hneg, hneg, hneg⟩, ⟨habc, habc, ?_⟩⟩
  · simp only [parseAbstractionRefForOrder]
    exact checkRefBounds_ok h
  · simp [parseAbstractionRefForOrder, abc_takeWhile, abc_parseInt, isErr]

/-- Witness for claim C2 at `maxIndex = 2`, `i = 1`. -/
theorem C2_reference_parser_contract_witness :
    (1 : ℕ) ≤ 2 ∧
    validateFileIndex (JVal.num ((1 : ℕ) : ℚ)) ((2 : ℕ) : ℤ) = Except.ok ((1 : ℕ) : ℚ) ∧
    parseAbstractionRefForOrder (JVal.str (natDecString 1 ++ " # X")) ((2 : ℕ) : ℤ)
      = Except.ok ((1 : ℕ) : ℚ) ∧
    isErr (parseAbstractionRef (JVal.num (((2 : ℕ) : ℚ) + 1)) ((2 : ℕ) : ℤ)) = true :=
  ⟨by decide, (C2_reference_parser_contract 2 1 (by decide)).1.1,
    (C2_reference_parser_contract 2 1 (by decide)).2.1.2.2,
    (C2_reference_parser_contract 2 1 (by decide)).2.2.1.2.1⟩

/-- Claim C3 counterexample: on the string `" 5"` with `maxIndex = 9`
the three parsers are not extensionally equal — `parseAbstractionRefForOrder`
falls back to `parseInt`, which skips leading whitespace and returns `5`,
while `validateFileIndex` and `parseAbstractionRef` throw a format error. -/
theorem C3_parsers_disagree_counterexample :
    parseAbstractionRefForOrder (JVal.str (" 5")) (9 : ℤ) = Except.ok (5 : ℚ) ∧
    validateFileIndex (JVal.str (" 5")) (9 : ℤ) = Except.error (RefError.badFormat " 5") ∧
    parseAbstractionRef (JVal.str (" 5")) (9 : ℤ) = Except.error (RefError.badFormat " 5") := by
  refine ⟨?_, ?_, ?_⟩ <;> rfl

/-- Claim C3 as amended: `validateFileIndex` and `parseAbstractionRef`
are extensionally equal on every input, and `parseAbstractionRefForOrder`
agrees with them on every input that is not a string lacking a leading
digit run (on such strings the first two always throw, while the order
parser may accept through its `parseInt` fallback, e.g. on `" 5"`). -/
theorem C3_parsers_agreement_amended (v : JVal) (m : ℤ) :
    validateFileIndex v m = parseAbstractionRef v m ∧
    (noLeadingDigitStr v = false → parseAbstractionRefForOrder v m = validateFileIndex v m) := by
  constructor
  · exact congrFun (congrFun validateFileIndex_eq_parseAbstractionRef v) m
  · intro hv
    cases v <;> try rfl
    next s =>
      simp only [noLeadingDigitStr] at hv
      simp only [parseAbstractionRefForOrder, validateFileIndex, hv, Bool.false_eq_true,
        if_false]

/-- Witness for the amended claim C3 at the number `3`, `maxIndex = 5`. -/
theorem C3_parsers_agreement_amended_witness :
    noLeadingDigitStr (JVal.num 3) = false ∧
    parseAbstractionRefForOrder (JVal.num 3) (5 : ℤ) = validateFileIndex (JVal.num 3) (5 : ℤ) ∧
    validateFileIndex (JVal.num 3) (5 : ℤ) = parseAbstractionRef (JVal.num 3) (5 : ℤ) :=
  ⟨by decide, (C3_parsers_agreement_amended (JVal.num 3) 5).2 (by decide),
    (C3_parsers_agreement_amended (JVal.num 3) 5).1⟩

/-- Claim C7: for every title and chapter number `n ≥ 1`,
`sanitizeFilename title n` equals the specification formula
(`specFilename`): zero-padded number, underscore, slug (lowercased,
internal whitespace runs collapsed to single underscores, characters
outside `[A-Za-z0-9_.-]` stripped, `chapter` substituted when only
underscores remain), then `.md`; including the four concrete examples. -/
theorem C7_sanitize_filename_spec :
    (∀ (title : String) (n : ℕ), 1 ≤ n → sanitizeFilename title n = specFilename title n) ∧
    sanitizeFilename ("Introduction") 1 = "01_introduction.md" ∧
    sanitizeFilename ("") 1 = "01_chapter.md" ∧
    sanitizeFilename ("___") 4 = "04_chapter.md" ∧
    sanitizeFilename ("My Chapter!") 3 = "03_my_chapter.md" := by
  refine ⟨fun title n _ => sanitizeFilename_eq_specFilename title n, ?_, ?_, ?_, ?_⟩ <;> rfl

/-- Witness for claim C7 at the title `"My Chapter!"` and `n = 3`. -/
theorem C7_sanitize_filename_spec_witness :
    (1 : ℕ) ≤ 3 ∧ sanitizeFilename ("My Chapter!") 3 = specFilename ("My Chapter!") 3 :=
  ⟨by decide, (C7_sanitize_filename_spec).1 ("My Chapter!") 3 (by decide)⟩

/-- Witness for claim C10: one invalid item (file index 5 with a single
file) next to one valid item. -/
theorem C10_bad_item_skipped_witness :
    validateRawAbstraction 0 (JVal.obj
        [("name", JVal.str ("B")), ("description", JVal.str ("dB")),
         ("file_indices", JVal.arr [JVal.num 5])]) = none ∧
    identifyAbstractions [⟨"a.ts", "xa"⟩] "proj" (fun _ => "r")
        (fun _ => Except.ok (JVal.arr
          [JVal.obj
            [("name", JVal.str ("B")), ("description", JVal.str ("dB")),
             ("file_indices", JVal.arr [JVal.num 5])],
           JVal.obj
            [("name", JVal.str ("G")), ("description", JVal.str ("dG")),
             ("file_indices", JVal.arr [JVal.num 0])]])) "english" 10
      = (Except.ok [⟨"G", "dG", [0]⟩], 1) := by
  have h := C10_bad_item_skipped 0 []
    [JVal.obj
      [("name", JVal.str ("G")), ("description", JVal.str ("dG")),
       ("file_indices", JVal.arr [JVal.num 0])]]
    (JVal.obj
      [("name", JVal.str ("B")), ("description", JVal.str ("dB")),
       ("file_indices", JVal.arr [JVal.num 5])])
    [JVal.num 5] (by rfl) ⟨JVal.num 5, by simp, by rfl⟩
  refine ⟨h.1, ?_⟩
  have h2 := h.2.2 [⟨"a.ts", "xa"⟩] "proj" (fun _ => "r") "english" 10 (by simp) (by decide)
  simp only [List.nil_append] at h2
  rw [h2]
  rfl

/-- Witness for the amended claim C8 at `chapterOrder = [0, 1]` with two
named abstractions. -/
theorem C8_filenames_unique_amended_witness :
    ([(0 : ℚ), 1]).Nodup ∧
    (((writeChapters [0, 1] [⟨"Alpha", "da", []⟩, ⟨"Beta", "db", []⟩] [] "p"
        (fun _ => "r") "english").1).map (fun o => o.filename)).Nodup ∧
    ∀ o ∈ (writeChapters [0, 1] [⟨"Alpha", "da", []⟩, ⟨"Beta", "db", []⟩] [] "p"
        (fun _ => "r") "english").1,
      o.filename = sanitizeFilename
        (chapterDisplayName [⟨"Alpha", "da", []⟩, ⟨"Beta", "db", []⟩] o.abstractionIndex)
        o.chapterNumber :=
  ⟨by decide,
    (C8_filenames_unique_amended [0, 1] [⟨"Alpha", "da", []⟩, ⟨"Beta", "db", []⟩] [] "p"
      (fun _ => "r") "english" (by decide)).1,
    (C8_filenames_unique_amended [0, 1] [⟨"Alpha", "da", []⟩, ⟨"Beta", "db", []⟩] [] "p"
      (fun _ => "r") "english" (by decide)).2⟩
